import Mathlib

/-!
Verification of the probe-and-alert engine of `pinger.py` (class `Pinger`).

The Python source is shallowly embedded: every effectful call (network,
subprocess, filesystem, clock) is replaced by an explicit environment value
describing what the outside world did, and the functions under scrutiny are
translated into total Lean functions over those environments.  Machine floats
are modelled as rationals; the Python string operations used by the source
(`in`, `str.split` with and without a separator, `str.splitlines`,
`str.replace`, `float(...)`, `urllib.parse.urlparse`) are given executable
models on lists of characters, restricted to ASCII text, which is the
character range actually produced by the external ping utility and the URL
targets the source consumes.
-/

/-! ## Python string primitives -/

/-- The ASCII whitespace characters recognised by `str.split()` / `float()`. -/
def pyWhitespaceChar (c : Char) : Bool :=
  c = ' ' ∨ c = '\t' ∨ c = '\n' ∨ c = '\r' ∨ c = '\x0b' ∨ c = '\x0c'

/-- `sep in cs` for a nonempty separator: some suffix of `cs` starts with `sep`. -/
def hasSubL (sep : List Char) : List Char → Bool
  | [] => false
  | c :: rest => sep.isPrefixOf (c :: rest) || hasSubL sep rest

/-- Model of Python `sub in s` on strings (always used with a nonempty pattern). -/
def pyIn (sub s : String) : Bool := hasSubL sub.toList s.toList

/-- Worker for `str.split(sep)` with separator `s0 :: stl`: returns the chunk up
to the first separator occurrence together with the chunks after it.  The fuel
argument only serves structural termination; `fuel = cs.length` always
suffices because every step consumes at least one character. -/
def splitSubFuel (s0 : Char) (stl : List Char) : ℕ → List Char → List Char × List (List Char)
  | 0, cs => (cs, [])
  | _ + 1, [] => ([], [])
  | fuel + 1, c :: rest =>
    if (s0 :: stl).isPrefixOf (c :: rest) then
      (fun r => (([] : List Char), r.1 :: r.2)) (splitSubFuel s0 stl fuel (rest.drop stl.length))
    else
      (fun r => (c :: r.1, r.2)) (splitSubFuel s0 stl fuel rest)

/-- Model of Python `s.split(sep)` for a nonempty separator (Python raises on an
empty separator; the source only splits on `"time="` and `"time<"`). -/
def splitSubL (sep cs : List Char) : List (List Char) :=
  match sep with
  | [] => [cs]
  | s0 :: stl => (fun r => r.1 :: r.2) (splitSubFuel s0 stl cs.length cs)

/-- Worker for `str.split()` carrying the current (reversed) word. -/
def splitWsAux : List Char → List Char → List (List Char)
  | [], acc => if acc.isEmpty then [] else [acc.reverse]
  | c :: rest, acc =>
    if pyWhitespaceChar c then
      if acc.isEmpty then splitWsAux rest []
      else acc.reverse :: splitWsAux rest []
    else splitWsAux rest (c :: acc)

/-- Model of Python `s.split()` (split on whitespace runs, dropping empties). -/
def splitWsL (cs : List Char) : List (List Char) := splitWsAux cs []

/-- The line-break characters split by `str.splitlines` on the output of a
ping utility (`\r\n` counts as a single break). -/
def pyLineBreakChar (c : Char) : Bool :=
  c = '\n' ∨ c = '\r' ∨ c = '\x0b' ∨ c = '\x0c' ∨ c = '\x1c' ∨ c = '\x1d' ∨ c = '\x1e'

/-- Worker for `str.splitlines`, carrying the (reversed) current line. -/
def splitlinesAux : List Char → List Char → List (List Char)
  | [], acc => if acc.isEmpty then [] else [acc.reverse]
  | '\r' :: '\n' :: rest, acc => acc.reverse :: splitlinesAux rest []
  | c :: rest, acc =>
    if pyLineBreakChar c then acc.reverse :: splitlinesAux rest []
    else splitlinesAux rest (c :: acc)

/-- Model of Python `s.splitlines()` (no trailing empty line). -/
def pySplitlinesL (cs : List Char) : List (List Char) := splitlinesAux cs []

/-- Model of Python `s.replace(old, new)` for a nonempty `old = s0 :: stl`
(the source only replaces `"ms"` by `""`).  Fuel as in `splitSubFuel`. -/
def replaceSubFuel (s0 : Char) (stl repl : List Char) : ℕ → List Char → List Char
  | 0, cs => cs
  | _ + 1, [] => []
  | fuel + 1, c :: rest =>
    if (s0 :: stl).isPrefixOf (c :: rest) then
      repl ++ replaceSubFuel s0 stl repl fuel (rest.drop stl.length)
    else
      c :: replaceSubFuel s0 stl repl fuel rest

/-- Model of Python `s.replace(old, new)` for a nonempty `old`. -/
def replaceSubL (old repl cs : List Char) : List Char :=
  match old with
  | [] => cs
  | s0 :: stl => replaceSubFuel s0 stl repl cs.length cs

/-- Strip the surrounding whitespace accepted by Python `float(...)`. -/
def pyStrip (cs : List Char) : List Char :=
  ((cs.dropWhile pyWhitespaceChar).reverse.dropWhile pyWhitespaceChar).reverse

/-! ## Model of Python `float(string)` over ℚ

Restricted to finite decimal literals (optionally signed, optional fraction,
optional exponent, underscores between digits as in Python ≥ 3.6).  The
spellings `inf` / `infinity` / `nan`, which Python maps to non-finite floats,
have no rational value and are treated as unparseable here; they do not occur
in the timing fields of ping output, the only place the source calls
`float`. -/

/-- Numeric value of an ASCII digit. -/
def digitVal (c : Char) : ℕ := c.toNat - 48

/-- Consume a Python `digitpart` (`digit (["_"] digit)*`), accumulating the
value and the number of digits; the caller checks that the first character is
a digit.  An underscore not followed by a digit is left unconsumed. -/
def pyDigitsAux : List Char → ℕ → ℕ → ℕ × ℕ × List Char
  | [], acc, n => (acc, n, [])
  | c :: rest, acc, n =>
    if c.isDigit then pyDigitsAux rest (acc * 10 + digitVal c) (n + 1)
    else if c = '_' then
      match rest with
      | d :: rest2 =>
        if d.isDigit then pyDigitsAux rest2 (acc * 10 + digitVal d) (n + 1)
        else (acc, n, c :: rest)
      | [] => (acc, n, [c])
    else (acc, n, c :: rest)

/-- Parse a `digitpart`, requiring a leading digit. -/
def pyDigits? (cs : List Char) : Option (ℕ × ℕ × List Char) :=
  match cs with
  | c :: _ => if c.isDigit then some (pyDigitsAux cs 0 0) else none
  | [] => none

/-- Parse the mantissa of a Python float literal: `digitpart ["." [digitpart]]`
or `"." digitpart`. -/
def pyMantissa? (cs : List Char) : Option (ℚ × List Char) :=
  match pyDigits? cs with
  | some (ip, _, rest) =>
    match rest with
    | '.' :: rest2 =>
      match pyDigits? rest2 with
      | some (fp, fn, rest3) => some ((ip : ℚ) + (fp : ℚ) / (10 : ℚ) ^ fn, rest3)
      | none => some ((ip : ℚ), rest2)
    | _ => some ((ip : ℚ), rest)
  | none =>
    match cs with
    | '.' :: rest2 =>
      match pyDigits? rest2 with
      | some (fp, fn, rest3) => some ((fp : ℚ) / (10 : ℚ) ^ fn, rest3)
      | none => none
    | _ => none

/-- Parse an optional exponent `("e"|"E") [sign] digitpart`. -/
def pyExp? (cs : List Char) : Option (ℤ × List Char) :=
  match cs with
  | c :: rest =>
    if c = 'e' ∨ c = 'E' then
      match rest with
      | '+' :: rest2 =>
        match pyDigits? rest2 with
        | some (e, _, rest3) => some ((e : ℤ), rest3)
        | none => none
      | '-' :: rest2 =>
        match pyDigits? rest2 with
        | some (e, _, rest3) => some (-(e : ℤ), rest3)
        | none => none
      | rest2 =>
        match pyDigits? rest2 with
        | some (e, _, rest3) => some ((e : ℤ), rest3)
        | none => none
    else some (0, cs)
  | [] => some (0, [])

/-- Case-insensitive comparison against a fixed ASCII word. -/
def lowerEqL (cs : List Char) (t : List Char) : Bool :=
  cs.map Char.toLower = t

/-- Model of Python `float(s)` on a stripped character list. -/
def pyFloatCore? (cs : List Char) : Option ℚ :=
  let signed : Bool × List Char :=
    match cs with
    | '+' :: r => (false, r)
    | '-' :: r => (true, r)
    | r => (false, r)
  if lowerEqL signed.2 "inf".toList ∨ lowerEqL signed.2 "infinity".toList ∨
      lowerEqL signed.2 "nan".toList then none
  else
    match pyMantissa? signed.2 with
    | some (m, rest) =>
      match pyExp? rest with
      | some (e, rest2) =>
        if rest2.isEmpty then some ((if signed.1 then -m else m) * (10 : ℚ) ^ e)
        else none
      | none => none
    | none => none

/-- Model of Python `float(s)` on a string. -/
def pyFloat? (s : String) : Option ℚ := pyFloatCore? (pyStrip s.toList)

unseal Rat.inv Rat.mul Rat.add in
example : pyFloat? "23.4" = some (234 / 10 : ℚ) := by decide
unseal Rat.inv Rat.mul Rat.add in
example : pyFloat? " 1e2 " = some (100 : ℚ) := by decide
unseal Rat.inv Rat.mul Rat.add in
example : pyFloat? "0.000" = some 0 := by decide
unseal Rat.inv Rat.mul Rat.add in
example : pyFloat? "1_0.5" = some (105 / 10 : ℚ) := by decide
unseal Rat.inv Rat.mul Rat.add in
example : pyFloat? "1." = some 1 := by decide
example : pyFloat? "" = none := by decide
example : pyFloat? "1e" = none := by decide
example : pyFloat? "1__0" = none := by decide
unseal Rat.inv Rat.mul Rat.add Rat.sub in
example : pyFloat? "-2.5e-1" = some (-25 / 100 : ℚ) := by decide
example : pyIn "time=" "round trip time=3 ms" = true := by decide
example : pyIn "time=" "no token here" = false := by decide
example : splitSubL "time=".toList "a time=1 time=2".toList =
    ["a ".toList, "1 ".toList, "2".toList] := by decide
example : splitWsL "  a bc ".toList = ["a".toList, "bc".toList] := by decide
example : pySplitlinesL "a\r\nb\nc".toList = ["a".toList, "b".toList, "c".toList] := by decide
example : pySplitlinesL "a\n".toList = ["a".toList] := by decide
example : replaceSubL "ms".toList [] "23.4ms".toList = "23.4".toList := by decide

/-! ## Model of `urllib.parse.urlparse` (the fields `__init__` reads)

`Pinger.__init__` (pinger.py lines 85-94) decides URL-ness by `"://" in target`
and then reads `scheme`, `netloc` and `path` from `urlparse(target)`.  The
scheme is the part before the first `:` when it is a nonempty run of scheme
characters starting with an ASCII letter, lowercased; the netloc follows a
leading `//` up to the first `/?#`; the path is the remainder up to `?`/`#`. -/

/-- The characters allowed in a URL scheme. -/
def schemeChar (c : Char) : Bool := c.isAlpha || c.isDigit || c = '+' || c = '-' || c = '.'

/-- Split off the scheme, if syntactically valid: `(scheme, rest)`. -/
def splitScheme (cs : List Char) : List Char × List Char :=
  match cs.findIdx? (· = ':') with
  | some i =>
    let before := cs.take i
    if 0 < i ∧ before.all schemeChar ∧ (before.headD ' ').isAlpha then
      (before.map Char.toLower, cs.drop (i + 1))
    else ([], cs)
  | none => ([], cs)

/-- Split off the netloc after a leading `//`: `(netloc, rest)`. -/
def splitNetloc (cs : List Char) : List Char × List Char :=
  if cs.take 2 = ['/', '/'] then
    let after := cs.drop 2
    let netloc := after.takeWhile (fun c => c ≠ '/' ∧ c ≠ '?' ∧ c ≠ '#')
    (netloc, after.drop netloc.length)
  else ([], cs)

/-- The `path` component: the rest up to the query/fragment separators. -/
def urlPathOf (cs : List Char) : List Char :=
  cs.takeWhile (fun c => c ≠ '?' ∧ c ≠ '#')

/-! ## Data model -/

/-- The dictionary returned by `Pinger.ping_once` / `Pinger.system_ping`
(pinger.py lines 203-208 and 250-255): keys `success`, `response_time` (ms),
`timestamp`, `error`. -/
structure ProbeResult where
  success : Bool
  response_time : ℚ
  timestamp : String
  error : String
deriving DecidableEq, Repr

/-- The configuration state set up by `Pinger.__init__` (pinger.py lines
29-94).  The constructor performs no validation: it only stores its arguments
and derives `is_url` / `protocol` / `host` / `path` from `target`. -/
structure PingerCfg where
  target : String
  interval : ℚ
  timeout : ℚ
  max_failures : ℕ
  packet_size : Option ℕ
  is_url : Bool
  protocol : String
  host : String
  path : String
deriving DecidableEq, Repr

/-- Model of `Pinger.__init__` (pinger.py lines 29-94).  It is total: no
argument combination raises.  `is_url` is `"://" in target`; for URL targets
the scheme, netloc and path come from `urlparse`, with `path` defaulting to
`"/"` (line 90). -/
def pingerInit (target : String) (interval timeout : ℚ) (max_failures : ℕ)
    (packet_size : Option ℕ) : PingerCfg :=
  if pyIn "://" target then
    let afterScheme := splitScheme target.toList
    let netlocRest := splitNetloc afterScheme.2
    let path := urlPathOf netlocRest.2
    { target := target, interval := interval, timeout := timeout,
      max_failures := max_failures, packet_size := packet_size,
      is_url := true,
      protocol := String.mk afterScheme.1,
      host := String.mk netlocRest.1,
      path := if path.isEmpty then "/" else String.mk path }
  else
    { target := target, interval := interval, timeout := timeout,
      max_failures := max_failures, packet_size := packet_size,
      is_url := false, protocol := "", host := target, path := "" }

example : (pingerInit "http://example.com/x" 5 2 3 none).protocol = "http" := by decide
example : (pingerInit "http://example.com/x" 5 2 3 none).host = "example.com" := by decide
example : (pingerInit "http://example.com/x" 5 2 3 none).path = "/x" := by decide
example : (pingerInit "https://example.com" 5 2 3 none).path = "/" := by decide
example : (pingerInit "FTP://h" 5 2 3 none).protocol = "ftp" := by decide
example : (pingerInit "8.8.8.8" 5 2 3 none).is_url = false := by decide

/-! ## `Pinger.system_ping` (pinger.py lines 140-208)

The subprocess invocation is an environment value: either the Python-level
exception message (`except Exception as e`) or the completed process's
`(returncode, stdout, stderr)`.  `elapsedMs` is the wall-clock
`(end_time - start_time) * 1000` the source computes as a fallback. -/

/-- Environment for one `subprocess.run` of the system ping utility. -/
structure SysPingEnv where
  runResult : Except String (ℤ × String × String)
  elapsedMs : ℚ
  timestamp : String
deriving Repr

/-- The per-line `try` block of lines 188-192: take the field after the first
`"time="` (or `"time<"` when no `"time="` occurs in the line), cut it at the
first whitespace, delete every `"ms"`, and parse the result with `float`;
`IndexError` / `ValueError` become `none`. -/
def parseLineTime (line : List Char) : Option ℚ :=
  let part? : Option (List Char) :=
    if hasSubL "time=".toList line then
      ((splitSubL "time=".toList line).get? 1).bind (fun seg => (splitWsL seg).head?)
    else
      ((splitSubL "time<".toList line).get? 1).bind (fun seg => (splitWsL seg).head?)
  part?.bind (fun tp => pyFloatCore? (pyStrip (replaceSubL "ms".toList [] tp)))

/-- The scanning loop of lines 184-192: `response_time` starts at `0.0` and is
overwritten by every successfully parsed timing token, line by line. -/
def scanResponseTime (output : String) : ℚ :=
  if hasSubL "time=".toList output.toList ∨ hasSubL "time<".toList output.toList then
    (pySplitlinesL output.toList).foldl
      (fun rt line =>
        if hasSubL "time=".toList line ∨ hasSubL "time<".toList line then
          match parseLineTime line with
          | some v => v
          | none => rt
        else rt) 0
  else 0

/-- Model of `Pinger.system_ping` (lines 140-208).  Success is
`returncode == 0`; on success the timing is parsed from stdout; whenever the
parsed value is still `0.0` the measured wall-clock elapsed time is used
(lines 199-201); on failure `error` is stderr or `"Ping failed"`; an exception
from `subprocess.run` is captured as `error` (lines 195-196), never raised. -/
def system_ping (env : SysPingEnv) : ProbeResult :=
  match env.runResult with
  | .error msg =>
    { success := false, response_time := env.elapsedMs,
      timestamp := env.timestamp, error := msg }
  | .ok (code, out, errOut) =>
    if code = 0 then
      let rt := scanResponseTime out
      { success := true,
        response_time := if rt = 0 then env.elapsedMs else rt,
        timestamp := env.timestamp, error := "" }
    else
      { success := false, response_time := env.elapsedMs,
        timestamp := env.timestamp,
        error := if errOut = "" then "Ping failed" else errOut }

unseal Rat.inv Rat.mul Rat.add in
example : scanResponseTime "64 bytes: icmp_seq=1 ttl=64 time=23.4 ms" = 234 / 10 := by decide
unseal Rat.inv Rat.mul Rat.add in
example : scanResponseTime "Reply from h: bytes=32 time<1ms TTL=64" = 1 := by decide
example : scanResponseTime "Request timed out." = 0 := by decide

/-! ## `Pinger.ping_once` (pinger.py lines 210-255)

The network is an environment value: what a HEAD request would return (a
status, or the message of the exception it raises) and what the socket
connect would do.  The embedding also returns the list of network calls the
code path actually performed, so that "no network call attempted" is a
provable statement. -/

/-- Outcome of `conn.request("HEAD", path); conn.getresponse()` if attempted. -/
inductive HttpOutcome where
  | status (code : ℕ)
  | raised (msg : String)
deriving DecidableEq, Repr

/-- Outcome of `sock.connect((host, 80))` if attempted. -/
inductive ConnOutcome where
  | connected
  | raised (msg : String)
deriving DecidableEq, Repr

/-- A network-touching operation performed during one `ping_once`. -/
inductive NetCall where
  | httpHead
  | sockConnect
  | sysPing
deriving DecidableEq, Repr

/-- Environment for one `ping_once` tick. -/
structure PingEnv where
  http : HttpOutcome
  conn : ConnOutcome
  sys : SysPingEnv
  elapsedMs : ℚ
  timestamp : String
deriving Repr

/-- Model of `Pinger.ping_once` (lines 210-255) together with the network
calls it performs.  With a configured `packet_size` it delegates to
`system_ping` (line 218).  For a URL whose scheme is `http`/`https` it issues
a HEAD request and reports success exactly for `200 <= status < 400` (line
233); any other scheme is rejected without touching the network (line 237).
For a non-URL target it attempts a TCP connect to port 80 (lines 240-243).
Every exception is captured as `error` with `success = False` (lines
244-245); `response_time` is always the measured wall-clock elapsed time. -/
def ping_once (cfg : PingerCfg) (env : PingEnv) : ProbeResult × List NetCall :=
  if cfg.packet_size.isSome then
    (system_ping env.sys, [NetCall.sysPing])
  else if cfg.is_url then
    if cfg.protocol = "http" ∨ cfg.protocol = "https" then
      match env.http with
      | .status code =>
        if 200 ≤ code ∧ code < 400 then
          ({ success := true, response_time := env.elapsedMs,
             timestamp := env.timestamp, error := "" }, [NetCall.httpHead])
        else
          ({ success := false, response_time := env.elapsedMs,
             timestamp := env.timestamp,
             error := "HTTP status: " ++ toString code }, [NetCall.httpHead])
      | .raised msg =>
        ({ success := false, response_time := env.elapsedMs,
           timestamp := env.timestamp, error := msg }, [NetCall.httpHead])
    else
      ({ success := false, response_time := env.elapsedMs,
         timestamp := env.timestamp,
         error := "Unsupported protocol: " ++ cfg.protocol }, [])
  else
    match env.conn with
    | .connected =>
      ({ success := true, response_time := env.elapsedMs,
         timestamp := env.timestamp, error := "" }, [NetCall.sockConnect])
    | .raised msg =>
      ({ success := false, response_time := env.elapsedMs,
         timestamp := env.timestamp, error := msg }, [NetCall.sockConnect])

/-! ## `Pinger.execute_shell_script` (pinger.py lines 118-138)

The filesystem and process spawner are an environment; the embedding returns
what the call does — a returned string, or an uncaught Python exception —
together with the trace of side effects (`os.chmod`, `subprocess.run`), in
order.  The `try` block of lines 123-135 covers both `os.chmod` and
`subprocess.run`, but its `except` clause (line 137) names only
`subprocess.CalledProcessError`, so an `OSError`/`PermissionError` raised by
`os.chmod` on an existing path escapes the method. -/

/-- A side effect of `execute_shell_script`. -/
inductive ScriptEffect where
  | chmodExec
  | spawnScript
deriving DecidableEq, Repr

/-- Outcome of `os.chmod(script_path, 0o755)` if attempted (line 125): the
call either succeeds or raises an `OSError` such as `PermissionError` (e.g.
the file belongs to another user, or sits on a read-only filesystem). -/
inductive ChmodOutcome where
  | ok
  | raised (msg : String)
deriving DecidableEq, Repr

/-- Environment for one `execute_shell_script` call: whether
`os.path.exists(script_path)` holds, what `os.chmod` does if attempted, and
what `subprocess.run("bash ...")` reports if spawned. -/
structure ScriptEnv where
  pathExists : Bool
  chmod : ChmodOutcome
  exitCode : ℤ
  stdout : String
  stderr : String
deriving DecidableEq, Repr

/-- Model of `Pinger.execute_shell_script` (lines 118-138).  A missing path
returns the `"Script not found: ..."` diagnostic before any side effect.
Otherwise the script is chmod-ed and then spawned, and a nonzero exit status
(`subprocess.CalledProcessError`, from `check=True`) is captured as the
`"Script execution failed: ..."` diagnostic.  An exception raised by
`os.chmod` itself, however, is not caught — the `except` clause names only
`CalledProcessError` — and propagates to the caller (`Except.error`), with no
process spawned. -/
def execute_shell_script (env : ScriptEnv) (script_path : String) :
    Except String String × List ScriptEffect :=
  if ¬ env.pathExists then
    (Except.ok ("Script not found: " ++ script_path), [])
  else
    match env.chmod with
    | ChmodOutcome.raised msg => (Except.error msg, [ScriptEffect.chmodExec])
    | ChmodOutcome.ok =>
      if env.exitCode = 0 then
        (Except.ok env.stdout, [ScriptEffect.chmodExec, ScriptEffect.spawnScript])
      else
        (Except.ok ("Script execution failed: " ++ env.stderr),
         [ScriptEffect.chmodExec, ScriptEffect.spawnScript])

/-! ## The tracking state and the monitoring loop (`Pinger.start`, lines 257-348) -/

/-- The mutable counters of a `Pinger` (lines 68-71). -/
structure PingerState where
  consecutive_failures : ℕ
  total_pings : ℕ
  successful_pings : ℕ
  response_times : List ℚ
deriving DecidableEq, Repr

/-- The counters as `__init__` leaves them (lines 68-71). -/
def initState : PingerState :=
  { consecutive_failures := 0, total_pings := 0, successful_pings := 0,
    response_times := [] }

/-- The per-tick counter update of `Pinger.start` (lines 289-309):
`total_pings += 1`; on success `successful_pings += 1`,
`consecutive_failures = 0` and the response time is appended; on failure
`consecutive_failures += 1`. -/
def recordResult (st : PingerState) (r : ProbeResult) : PingerState :=
  if r.success then
    { consecutive_failures := 0,
      total_pings := st.total_pings + 1,
      successful_pings := st.successful_pings + 1,
      response_times := st.response_times ++ [r.response_time] }
  else
    { consecutive_failures := st.consecutive_failures + 1,
      total_pings := st.total_pings + 1,
      successful_pings := st.successful_pings,
      response_times := st.response_times }

/-- Fold `recordResult` over a list of probe results. -/
def processResults (st : PingerState) : List ProbeResult → PingerState
  | [] => st
  | r :: rs => processResults (recordResult st r) rs

/-- The alert report emitted on each tick (lines 333-336): the source prints
the ALERT banner whenever `consecutive_failures >= max_failures` holds after
recording the tick's result.  `alertFlags` lists that condition for every
tick of a run. -/
def alertFlags (max_failures : ℕ) (st : PingerState) : List ProbeResult → List Bool
  | [] => []
  | r :: rs =>
    decide (max_failures ≤ (recordResult st r).consecutive_failures)
      :: alertFlags max_failures (recordResult st r) rs

/-- `success_rate` of `Pinger._print_summary` (line 352): percentage of
successful pings, defined as `0` when no ping was recorded. -/
def success_rate (st : PingerState) : ℚ :=
  if 0 < st.total_pings then (st.successful_pings : ℚ) / (st.total_pings : ℚ) * 100
  else 0

/-- `avg_response` of `Pinger._print_summary` (line 353): mean of the recorded
response times, defined as `0` when none were recorded. -/
def avg_response (st : PingerState) : ℚ :=
  if st.response_times.isEmpty then 0
  else st.response_times.sum / (st.response_times.length : ℚ)

/-- One observed tick of the monitoring loop: the probe's result and the value
of `time.time() - start_time` at the duration check of that tick. -/
structure Tick where
  result : ProbeResult
  elapsed : ℚ
deriving DecidableEq, Repr

/-- How an observed finite window of the loop ended. -/
inductive LoopExit where
  /-- `break` at lines 339-340: the duration limit was reached. -/
  | durationStop
  /-- `time.sleep(interval)` raised `ValueError` (negative interval); the
  exception is not caught by the loop (only `KeyboardInterrupt` is). -/
  | sleepError
  /-- The observation window ended with the loop still running. -/
  | stillRunning
deriving DecidableEq, Repr

/-- The duration check of line 339: `if duration and elapsed >= duration`.
`duration` is `None` or an `int`; `0` is falsy, so it never stops the loop. -/
def durationHit (duration : Option ℤ) (elapsed : ℚ) : Bool :=
  match duration with
  | none => false
  | some d => decide (d ≠ 0) && decide ((d : ℚ) ≤ elapsed)

/-- Model of the `while True` loop of `Pinger.start` (lines 287-343) observed
over a finite window of ticks: each tick records its result, then checks the
duration limit, then sleeps `interval` seconds (a negative interval makes
`time.sleep` raise `ValueError`, which the loop does not catch). -/
def startLoop (interval : ℚ) (duration : Option ℤ) (st : PingerState) :
    List Tick → PingerState × LoopExit
  | [] => (st, LoopExit.stillRunning)
  | t :: rest =>
    let st2 := recordResult st t.result
    if durationHit duration t.elapsed then (st2, LoopExit.durationStop)
    else if interval < 0 then (st2, LoopExit.sleepError)
    else startLoop interval duration st2 rest

/-! ## Tracker lemmas -/

theorem total_processResults (rs : List ProbeResult) (st : PingerState) :
    (processResults st rs).total_pings = st.total_pings + rs.length := by
  induction rs generalizing st with
  | nil => simp [processResults]
  | cons r rs ih =>
    simp only [processResults, ih, List.length_cons]
    by_cases h : r.success <;> simp [recordResult, h] <;> omega

theorem successful_processResults (rs : List ProbeResult) (st : PingerState) :
    (processResults st rs).successful_pings =
      st.successful_pings + (rs.filter (fun r => r.success)).length := by
  induction rs generalizing st with
  | nil => simp [processResults]
  | cons r rs ih =>
    simp only [processResults, ih]
    by_cases h : r.success <;> simp [recordResult, h, List.filter_cons] <;> omega

theorem response_times_processResults (rs : List ProbeResult) (st : PingerState) :
    (processResults st rs).response_times =
      st.response_times ++ (rs.filter (fun r => r.success)).map (fun r => r.response_time) := by
  induction rs generalizing st with
  | nil => simp [processResults]
  | cons r rs ih =>
    simp only [processResults, ih]
    by_cases h : r.success <;> simp [recordResult, h, List.filter_cons]

/-- A sample successful probe result. -/
def resOk : ProbeResult :=
  { success := true, response_time := 10, timestamp := "t", error := "" }

/-- A sample failed probe result. -/
def resBad : ProbeResult :=
  { success := false, response_time := 0, timestamp := "t", error := "unreachable" }

/-- C4: for every sequence of `N` recorded results, `total_pings = N`,
`successful + failed = N` (where `failed = total - successful`, as printed by
`_print_summary`), `successful <= total`, a response time is appended exactly
for the successful results, every success resets `consecutive_failures` to 0,
and every failure increments it by exactly 1 without touching the response
times. -/
theorem claim_c4_tracker_invariants (rs : List ProbeResult) :
    (processResults initState rs).total_pings = rs.length ∧
    (processResults initState rs).successful_pings +
        ((processResults initState rs).total_pings -
          (processResults initState rs).successful_pings) = rs.length ∧
    (processResults initState rs).successful_pings ≤
        (processResults initState rs).total_pings ∧
    (processResults initState rs).response_times.length =
        (rs.filter (fun r => r.success)).length ∧
    (∀ st r, r.success = true → (recordResult st r).consecutive_failures = 0) ∧
    (∀ st r, r.success = false →
        (recordResult st r).consecutive_failures = st.consecutive_failures + 1) ∧
    (∀ st r, r.success = false → (recordResult st r).response_times = st.response_times) := by
  have htot := total_processResults rs initState
  have hsucc := successful_processResults rs initState
  have htimes := response_times_processResults rs initState
  have hle : (processResults initState rs).successful_pings ≤
      (processResults initState rs).total_pings := by
    rw [htot, hsucc]
    have := List.length_filter_le (fun r => r.success) rs
    simp [initState]
    omega
  refine ⟨by simpa [initState] using htot, ?_, hle, ?_, ?_, ?_, ?_⟩
  · rw [htot, hsucc]
    have := List.length_filter_le (fun r => r.success) rs
    simp [initState]
    omega
  · rw [htimes]
    simp [initState]
  · intro st r h
    simp [recordResult, h]
  · intro st r h
    simp [recordResult, h]
  · intro st r h
    simp [recordResult, h]

/-- Witness for C4 at the run `[resOk, resBad]`. -/
theorem claim_c4_tracker_invariants_witness :
    (processResults initState [resOk, resBad]).total_pings = 2 ∧
    (recordResult initState resOk).consecutive_failures = 0 ∧
    (recordResult initState resBad).consecutive_failures = 1 := by
  have h := claim_c4_tracker_invariants [resOk, resBad]
  exact ⟨by simpa using h.1,
    h.2.2.2.2.1 initState resOk (by decide),
    by simpa using h.2.2.2.2.2.1 initState resBad (by decide)⟩

/-- C5: the summary defines `success_rate` as `successful / total * 100` and
the average latency as the mean of the recorded response times, and both are
defined as `0` (a plain number, not an error) on the guard branches used when
`total_pings == 0` or no response times were recorded; in particular an empty
run and an all-failure run both report rate 0 and average 0, and an
all-success run reports rate 100. -/
theorem claim_c5_summary_stats (rs : List ProbeResult) :
    (∀ st : PingerState, st.total_pings = 0 → success_rate st = 0) ∧
    (∀ st : PingerState, st.response_times = [] → avg_response st = 0) ∧
    (0 < (processResults initState rs).total_pings →
      success_rate (processResults initState rs) =
        ((processResults initState rs).successful_pings : ℚ) /
          ((processResults initState rs).total_pings : ℚ) * 100) ∧
    success_rate (processResults initState []) = 0 ∧
    avg_response (processResults initState []) = 0 ∧
    ((∀ r ∈ rs, r.success = false) →
      success_rate (processResults initState rs) = 0 ∧
      avg_response (processResults initState rs) = 0) ∧
    ((∀ r ∈ rs, r.success = true) → rs ≠ [] →
      success_rate (processResults initState rs) = 100) := by
  refine ⟨?_, ?_, ?_, ?_, ?_, ?_, ?_⟩
  · intro st h
    simp [success_rate, h]
  · intro st h
    simp [avg_response, h]
  · intro h
    simp [success_rate, h]
  · simp [processResults, success_rate, initState]
  · simp [processResults, avg_response, initState]
  · intro hall
    have hfilter : rs.filter (fun r => r.success) = [] := by
      simp only [List.filter_eq_nil_iff]
      intro r hr
      simp [hall r hr]
    constructor
    · have hsucc := successful_processResults rs initState
      rw [success_rate]
      split
      · rw [hsucc]
        simp [initState, hfilter]
      · rfl
    · have htimes := response_times_processResults rs initState
      rw [avg_response]
      split
      · rfl
      · rename_i hne
        exfalso
        rw [htimes] at hne
        simp [initState, hfilter] at hne
  · intro hall hne
    have hfilter : rs.filter (fun r => r.success) = rs :=
      List.filter_eq_self.mpr (fun r hr => by simp [hall r hr])
    have hsucc := successful_processResults rs initState
    have htot := total_processResults rs initState
    have hlen : 0 < rs.length := List.length_pos.mpr hne
    have hpos : 0 < (processResults initState rs).total_pings := by
      rw [htot]
      simp [initState]
      omega
    rw [success_rate, if_pos hpos, hsucc, htot, hfilter]
    simp only [initState, Nat.zero_add]
    have hq : ((rs.length : ℚ)) ≠ 0 := by exact_mod_cast hlen.ne'
    rw [div_self hq, one_mul]

/-- Witness for C5 at the all-failure run `[resBad]` and the all-success run
`[resOk]`. -/
theorem claim_c5_summary_stats_witness :
    success_rate (processResults initState [resBad]) = 0 ∧
    avg_response (processResults initState [resBad]) = 0 ∧
    success_rate (processResults initState [resOk]) = 100 := by
  have h1 := (claim_c5_summary_stats [resBad]).2.2.2.2.2.1 (by decide)
  have h2 := (claim_c5_summary_stats [resOk]).2.2.2.2.2.2 (by decide) (by decide)
  exact ⟨h1.1, h1.2, h2⟩

/-! ## The consecutive-failure streak and the alert condition (C1, C2) -/

/-- The length of the failure streak at the end of a result sequence
(number of failures recorded since the most recent success). -/
def trailingFailures (rs : List ProbeResult) : ℕ :=
  (rs.reverse.takeWhile (fun r => !r.success)).length

theorem processResults_append (a b : List ProbeResult) (st : PingerState) :
    processResults st (a ++ b) = processResults (processResults st a) b := by
  induction a generalizing st with
  | nil => simp [processResults]
  | cons r a ih => simp [processResults, ih]

theorem consec_processResults (rs : List ProbeResult) :
    (processResults initState rs).consecutive_failures = trailingFailures rs := by
  induction rs using List.reverseRecOn with
  | nil => simp [processResults, trailingFailures, initState]
  | append_singleton rs r ih =>
    rw [processResults_append]
    by_cases h : r.success
    · simp [processResults, recordResult, h, trailingFailures]
    · simp only [processResults, recordResult, h, if_neg, Bool.false_eq_true, if_false]
      rw [ih]
      simp [trailingFailures, List.reverse_append, h]

theorem length_alertFlags (m : ℕ) (st : PingerState) (rs : List ProbeResult) :
    (alertFlags m st rs).length = rs.length := by
  induction rs generalizing st with
  | nil => simp [alertFlags]
  | cons r rs ih => simp [alertFlags, ih]

theorem alertFlags_append (m : ℕ) (st : PingerState) (a b : List ProbeResult) :
    alertFlags m st (a ++ b) = alertFlags m st a ++ alertFlags m (processResults st a) b := by
  induction a generalizing st with
  | nil => simp [alertFlags, processResults]
  | cons r a ih => simp [alertFlags, processResults, ih]

theorem recordResult_consec_congr (st st' : PingerState) (r : ProbeResult)
    (h : st.consecutive_failures = st'.consecutive_failures) :
    (recordResult st r).consecutive_failures = (recordResult st' r).consecutive_failures := by
  by_cases hs : r.success <;> simp [recordResult, hs, h]

theorem alertFlags_consec_congr (m : ℕ) (rs : List ProbeResult) (st st' : PingerState)
    (h : st.consecutive_failures = st'.consecutive_failures) :
    alertFlags m st rs = alertFlags m st' rs := by
  induction rs generalizing st st' with
  | nil => simp [alertFlags]
  | cons r rs ih =>
    have hc := recordResult_consec_congr st st' r h
    simp only [alertFlags, hc]
    rw [ih (recordResult st r) (recordResult st' r) hc]

theorem alertFlags_get? (m : ℕ) (rs : List ProbeResult) (st : PingerState) (k : ℕ)
    (hk : k < rs.length) :
    (alertFlags m st rs).get? k =
      some (decide (m ≤ (processResults st (rs.take (k + 1))).consecutive_failures)) := by
  induction rs generalizing st k with
  | nil => simp at hk
  | cons r rs ih =>
    cases k with
    | zero => simp [alertFlags, processResults, List.take]
    | succ k =>
      simp only [alertFlags, List.get?_cons_succ, List.take, processResults]
      exact ih (recordResult st r) k (by simpa using hk)

theorem alertFlags_allFail (m : ℕ) (rs : List ProbeResult) (st : PingerState)
    (h : ∀ r ∈ rs, r.success = false) :
    alertFlags m st rs =
      (List.range rs.length).map
        (fun j => decide (m ≤ st.consecutive_failures + j + 1)) := by
  induction rs generalizing st with
  | nil => simp [alertFlags]
  | cons r rs ih =>
    have hr : r.success = false := h r (by simp)
    have hrec : (recordResult st r).consecutive_failures = st.consecutive_failures + 1 := by
      simp [recordResult, hr]
    simp only [alertFlags, hrec, List.length_cons, List.range_succ_eq_map, List.map_cons,
      List.map_map, List.cons.injEq]
    refine ⟨by simp, ?_⟩
    · rw [ih (recordResult st r) (fun r hm => h r (by simp [hm]))]
      rw [hrec]
      apply List.map_congr_left
      intro j _
      simp only [Function.comp_apply]
      apply decide_eq_decide.mpr
      omega

theorem count_range_decide (m n : ℕ) (hm : 1 ≤ m) :
    (((List.range n).map (fun j => decide (m ≤ j + 1))).count true) = n - (m - 1) := by
  induction n with
  | zero => simp
  | succ n ih =>
    rw [List.range_succ, List.map_append, List.count_append]
    by_cases h : m ≤ n + 1
    · simp only [List.map_cons, List.map_nil, decide_eq_true h]
      rw [ih]
      simp [List.count_cons]
      omega
    · simp only [List.map_cons, List.map_nil]
      rw [decide_eq_false (by omega), ih]
      simp [List.count_cons]
      omega

/-- C1 counterexample: with `max_failures = 3` and four consecutive failures,
the source (line 334: `if self.consecutive_failures >= self.max_failures`)
reports the alert on the third AND on the fourth tick — the alert is repeated
on later consecutive failures, not signalled exactly once. -/
theorem claim_c1_counterexample :
    alertFlags 3 initState [resBad, resBad, resBad, resBad] =
      [false, false, true, true] ∧
    (alertFlags 3 initState [resBad, resBad, resBad, resBad]).count true = 2 := by
  constructor
  · decide
  · decide

/-- C1 (amended): the source keeps no `alert_active` flag and tests
`consecutive_failures >= max_failures` (not `==`) on every tick, so the alert
is reported on tick `k` exactly when the failure streak ending at tick `k`
has length at least `max_failures`; consequently an uninterrupted failure
streak of length `L >= max_failures >= 1` reports the alert `L - max_failures
+ 1` times (on the `max_failures`-th failure and on every later one), not
once. -/
theorem claim_c1_alert_threshold (m : ℕ) (rs : List ProbeResult) :
    (∀ k, k < rs.length →
      (alertFlags m initState rs).get? k =
        some (decide (m ≤ trailingFailures (rs.take (k + 1))))) ∧
    ((∀ r ∈ rs, r.success = false) → 1 ≤ m → m ≤ rs.length →
      (alertFlags m initState rs).count true = rs.length + 1 - m) := by
  constructor
  · intro k hk
    rw [alertFlags_get? m rs initState k hk, consec_processResults]
  · intro hall hm hmn
    rw [alertFlags_allFail m rs initState hall]
    simp only [initState, Nat.zero_add]
    rw [count_range_decide m rs.length hm]
    omega

/-- Witness for C1 (amended) at `max_failures = 3` and four straight
failures: the alert condition holds on tick 2 (0-based) and the alert is
reported twice over the streak. -/
theorem claim_c1_alert_threshold_witness :
    (alertFlags 3 initState [resBad, resBad, resBad, resBad]).get? 2 = some true ∧
    (alertFlags 3 initState [resBad, resBad, resBad, resBad]).count true = 4 + 1 - 3 := by
  have h := claim_c1_alert_threshold 3 [resBad, resBad, resBad, resBad]
  refine ⟨?_, h.2 (by decide) (by decide) (by decide)⟩
  have h2 := h.1 2 (by decide)
  simpa using h2

/-- C2 counterexample: with `max_failures = 3`, after three failures the alert
is reported on tick 3, but once a success arrives the source stops reporting
it — on the success tick and on every later tick of the run the ALERT banner
is no longer printed, because line 293 resets `consecutive_failures` to 0 and
no persistent alert flag exists.  This contradicts the claim that the alert
state, once entered, remains active for the rest of the run. -/
theorem claim_c2_counterexample :
    alertFlags 3 initState [resBad, resBad, resBad, resOk, resOk] =
      [false, false, true, false, false] := by
  decide

/-- C2 (amended): the source holds no persistent alert state at all.  The
alert report is recomputed on every tick from `consecutive_failures >=
max_failures`, and a success resets the counter to its initial value, so the
alert reports after a success are exactly those of a fresh run over the
remaining results: the alert disappears on recovery and returns only when a
new streak reaches `max_failures`. -/
theorem claim_c2_alert_not_persistent (m : ℕ) (a : List ProbeResult) (r : ProbeResult)
    (b : List ProbeResult) (h : r.success = true) :
    alertFlags m initState (a ++ r :: b) =
      alertFlags m initState (a ++ [r]) ++ alertFlags m initState b := by
  have hsplit : a ++ r :: b = (a ++ [r]) ++ b := by simp
  rw [hsplit, alertFlags_append]
  congr 1
  apply alertFlags_consec_congr
  rw [processResults_append]
  simp [processResults, recordResult, h, initState]

/-- Witness for C2 (amended): after the success following three failures, the
flags of the whole run are the flags of the prefix (ending in the success)
followed by those of a fresh run on the remainder. -/
theorem claim_c2_alert_not_persistent_witness :
    alertFlags 3 initState ([resBad, resBad, resBad] ++ resOk :: [resBad, resBad]) =
      alertFlags 3 initState ([resBad, resBad, resBad] ++ [resOk]) ++
        alertFlags 3 initState [resBad, resBad] :=
  claim_c2_alert_not_persistent 3 [resBad, resBad, resBad] resOk [resBad, resBad] (by decide)

/-! ## The duration check and loop entry (C9, C10) -/

theorem startLoop_total_mono (interval : ℚ) (duration : Option ℤ)
    (ticks : List Tick) (st : PingerState) :
    st.total_pings ≤ (startLoop interval duration st ticks).1.total_pings := by
  induction ticks generalizing st with
  | nil => simp [startLoop]
  | cons t rest ih =>
    have hrec : st.total_pings ≤ (recordResult st t.result).total_pings := by
      by_cases h : t.result.success <;> simp [recordResult, h]
    simp only [startLoop]
    split
    · exact hrec
    · split
      · exact hrec
      · exact le_trans hrec (ih (recordResult st t.result))

/-- C10: in the duration check `if duration and elapsed >= duration` (line
339) the value `0` is falsy, so running with `duration = 0` is
indistinguishable from running with no duration at all; for a strictly
positive duration the loop stops on the first tick whose elapsed time reaches
the duration, having processed every earlier tick; and any duration-triggered
stop happens only after the tick's probe was recorded, so the final
`total_pings` exceeds the initial one by at least 1. -/
theorem claim_c10_duration_semantics (interval : ℚ) (st : PingerState) :
    (∀ ticks, startLoop interval (some 0) st ticks = startLoop interval none st ticks) ∧
    (∀ d : ℤ, 0 < d → 0 ≤ interval → ∀ pre t rest,
      (∀ u ∈ pre, u.elapsed < (d : ℚ)) → (d : ℚ) ≤ t.elapsed →
      startLoop interval (some d) st (pre ++ t :: rest) =
        (recordResult (processResults st (pre.map Tick.result)) t.result,
          LoopExit.durationStop)) ∧
    (∀ duration ticks st', startLoop interval duration st ticks =
        (st', LoopExit.durationStop) → st.total_pings + 1 ≤ st'.total_pings) := by
  refine ⟨?_, ?_, ?_⟩
  · intro ticks
    induction ticks generalizing st with
    | nil => rfl
    | cons t rest ih => simp [startLoop, durationHit, ih]
  · intro d hd hint pre
    induction pre generalizing st with
    | nil =>
      intro t rest hpre ht
      have hhit : durationHit (some d) t.elapsed = true := by
        simp [durationHit, ht]
        omega
      simp [startLoop, hhit, processResults]
    | cons u pre ih =>
      intro t rest hpre ht
      have hmiss : durationHit (some d) u.elapsed = false := by
        have : u.elapsed < (d : ℚ) := hpre u (by simp)
        simp [durationHit]
        intro _
        linarith
      have hint2 : ¬ interval < 0 := not_lt.mpr hint
      simp only [List.cons_append, startLoop, hmiss, Bool.false_eq_true, if_false, hint2]
      exact ih (recordResult st u.result) t rest (fun v hv => hpre v (by simp [hv])) ht
  · intro duration ticks
    induction ticks generalizing st with
    | nil =>
      intro st' h
      simp [startLoop] at h
    | cons t rest ih =>
      intro st' h
      have hrec : (recordResult st t.result).total_pings = st.total_pings + 1 := by
        by_cases hs : t.result.success <;> simp [recordResult, hs]
      simp only [startLoop] at h
      split at h
      · cases h
        omega
      · split at h
        · cases h
        · have := ih (recordResult st t.result) st' h
          omega

/-- Witness for C10: `duration = 0` equals no duration on a concrete window;
with `duration = 5` the loop stops on the second tick (elapsed 6 ≥ 5) after
recording both probes. -/
theorem claim_c10_duration_semantics_witness :
    startLoop 1 (some 0) initState [Tick.mk resBad 100] =
      startLoop 1 none initState [Tick.mk resBad 100] ∧
    startLoop 1 (some 5) initState [Tick.mk resOk 2, Tick.mk resBad 6] =
      (recordResult (processResults initState [resOk]) resBad, LoopExit.durationStop) ∧
    initState.total_pings + 1 ≤
      (recordResult (processResults initState [resOk]) resBad).total_pings := by
  have h := claim_c10_duration_semantics 1 initState
  refine ⟨h.1 [Tick.mk resBad 100], ?_, ?_⟩
  · exact h.2.1 5 (by decide) (by decide) [Tick.mk resOk 2] (Tick.mk resBad 6) []
      (by intro u hu; simp at hu; rw [hu]; decide) (by decide)
  · apply h.2.2 (some 5) [Tick.mk resOk 2, Tick.mk resBad 6]
    exact h.2.1 5 (by decide) (by decide) [Tick.mk resOk 2] (Tick.mk resBad 6) []
      (by intro u hu; simp at hu; rw [hu]; decide) (by decide)

/-- C9 counterexample: `Pinger.__init__` performs no validation at all, so a
monitor configured with `interval = -1 <= 0` is constructed normally (no
error is raised) and its loop runs: the first tick performs and records a
probe (`total_pings` becomes 1), i.e. the loop does enter its running phase.
Only afterwards does `time.sleep(-1)` abort the run with an uncaught
`ValueError`.  This contradicts both halves of the claim. -/
theorem claim_c9_counterexample :
    (pingerInit "example.com" (-1) 2 3 none).interval = -1 ∧
    startLoop (-1) none initState [Tick.mk resBad 1] =
      (recordResult initState resBad, LoopExit.sleepError) ∧
    (recordResult initState resBad).total_pings = 1 := by
  refine ⟨by decide, ?_, by decide⟩
  simp [startLoop, durationHit]

/-- C9 (amended): the constructor stores any interval, including `interval <=
0`, without raising; the loop still enters its running phase and performs at
least its first probe.  A negative interval terminates the run only after
that first tick, through the uncaught `ValueError` of `time.sleep`; interval
`0` (or any nonnegative interval) lets the loop continue. -/
theorem claim_c9_no_interval_validation (target : String) (i tm : ℚ) (mf : ℕ)
    (ps : Option ℕ) (hi : i ≤ 0) (t : Tick) (ticks : List Tick) (st : PingerState) :
    (pingerInit target i tm mf ps).interval = i ∧
    st.total_pings + 1 ≤ (startLoop i none st (t :: ticks)).1.total_pings ∧
    (i < 0 → startLoop i none st (t :: ticks) =
      (recordResult st t.result, LoopExit.sleepError)) := by
  have hrec : (recordResult st t.result).total_pings = st.total_pings + 1 := by
    by_cases hs : t.result.success <;> simp [recordResult, hs]
  refine ⟨?_, ?_, ?_⟩
  · by_cases h : pyIn "://" target <;> simp [pingerInit, h]
  · simp only [startLoop, durationHit, Bool.false_eq_true, if_false]
    split
    · simp only
      omega
    · have := startLoop_total_mono i none ticks (recordResult st t.result)
      omega
  · intro hneg
    simp [startLoop, durationHit, hneg]

/-- Witness for C9 (amended) at `interval = -1`: construction succeeds, the
first probe is recorded, and the run aborts at the first sleep. -/
theorem claim_c9_no_interval_validation_witness :
    (pingerInit "example.com" (-1) 2 3 none).interval = -1 ∧
    initState.total_pings + 1 ≤
      (startLoop (-1) none initState [Tick.mk resBad 1]).1.total_pings ∧
    startLoop (-1) none initState [Tick.mk resBad 1] =
      (recordResult initState resBad, LoopExit.sleepError) := by
  have h := claim_c9_no_interval_validation "example.com" (-1) 2 3 none (by decide)
    (Tick.mk resBad 1) [] initState
  exact ⟨h.1, h.2.1, h.2.2 (by decide)⟩

/-! ## Probe error handling (C3, C6) and the script hook (C8) -/

theorem str_append_ne_empty (a b : String) (ha : a.length ≠ 0) : a ++ b ≠ "" := by
  intro h
  have hlen := congrArg String.length h
  rw [String.length_append] at hlen
  simp at hlen
  omega

/-- C3: no probe path raises for a network or invocation failure — the
embedding of `ping_once` / `system_ping` is a total function (every `try`
body is guarded by an exception handler in the source), and each failure
comes back as a result with `success = false` carrying the failure's
description: the exception message for a raised socket / HTTP / subprocess
exception, `"HTTP status: <code>"` for a non-success status,
`"Unsupported protocol: <scheme>"` for a bad scheme, and stderr or
`"Ping failed"` for a failed ping utility. -/
theorem claim_c3_probe_failures_in_band :
    (∀ env msg, env.runResult = Except.error msg →
      system_ping env = ProbeResult.mk false env.elapsedMs env.timestamp msg) ∧
    (∀ env code out errOut, env.runResult = Except.ok (code, out, errOut) → code ≠ 0 →
      (system_ping env).success = false ∧ (system_ping env).error ≠ "") ∧
    (∀ cfg env msg, cfg.packet_size = none → cfg.is_url = true →
      (cfg.protocol = "http" ∨ cfg.protocol = "https") →
      env.http = HttpOutcome.raised msg →
      (ping_once cfg env).1.success = false ∧ (ping_once cfg env).1.error = msg) ∧
    (∀ cfg env code, cfg.packet_size = none → cfg.is_url = true →
      (cfg.protocol = "http" ∨ cfg.protocol = "https") →
      env.http = HttpOutcome.status code → ¬ (200 ≤ code ∧ code < 400) →
      (ping_once cfg env).1.success = false ∧ (ping_once cfg env).1.error ≠ "") ∧
    (∀ cfg env, cfg.packet_size = none → cfg.is_url = true →
      cfg.protocol ≠ "http" → cfg.protocol ≠ "https" →
      (ping_once cfg env).1.success = false ∧ (ping_once cfg env).1.error ≠ "") ∧
    (∀ cfg env msg, cfg.packet_size = none → cfg.is_url = false →
      env.conn = ConnOutcome.raised msg →
      (ping_once cfg env).1.success = false ∧ (ping_once cfg env).1.error = msg) := by
  refine ⟨?_, ?_, ?_, ?_, ?_, ?_⟩
  · intro env msg h
    simp [system_ping, h]
  · intro env code out errOut h hc
    simp only [system_ping, h]
    rw [if_neg hc]
    refine ⟨rfl, ?_⟩
    split
    · simp
    · assumption
  · intro cfg env msg hps hurl hproto hhttp
    simp [ping_once, hps, hurl, hproto, hhttp]
  · intro cfg env code hps hurl hproto hhttp hbad
    simp only [ping_once, hps, Option.isSome_none, Bool.false_eq_true, if_false, hurl,
      if_true, hhttp]
    rw [if_pos hproto, if_neg hbad]
    exact ⟨rfl, str_append_ne_empty "HTTP status: " _ (by decide)⟩
  · intro cfg env hps hurl hp1 hp2
    simp only [ping_once, hps, Option.isSome_none, Bool.false_eq_true, if_false, hurl, if_true]
    rw [if_neg (not_or.mpr ⟨hp1, hp2⟩)]
    exact ⟨rfl, str_append_ne_empty "Unsupported protocol: " _ (by decide)⟩
  · intro cfg env msg hps hurl hconn
    simp [ping_once, hps, hurl, hconn]

/-- A network environment whose HEAD request raises. -/
def envHttpRaise : PingEnv :=
  { http := HttpOutcome.raised "timed out", conn := ConnOutcome.connected,
    sys := { runResult := Except.ok (0, "", ""), elapsedMs := 1, timestamp := "ts" },
    elapsedMs := 3, timestamp := "ts" }

/-- A network environment whose socket connect raises. -/
def envConnRaise : PingEnv :=
  { http := HttpOutcome.status 200,
    conn := ConnOutcome.raised "Connection refused",
    sys := { runResult := Except.ok (0, "", ""), elapsedMs := 1, timestamp := "ts" },
    elapsedMs := 3, timestamp := "ts" }

/-- Witness for C3: a raised ping subprocess, a nonzero ping exit, a raised
HEAD request and a refused socket connect are all reported in-band. -/
theorem claim_c3_probe_failures_in_band_witness :
    system_ping (SysPingEnv.mk (Except.error "ping: not found") 7 "ts") =
      ProbeResult.mk false 7 "ts" "ping: not found" ∧
    (system_ping (SysPingEnv.mk (Except.ok (1, "", "")) 7 "ts")).error ≠ "" ∧
    (ping_once (pingerInit "http://example.com" 5 2 3 none) envHttpRaise).1.error =
      "timed out" ∧
    (ping_once (pingerInit "8.8.8.8" 5 2 3 none) envConnRaise).1.error =
      "Connection refused" := by
  have h := claim_c3_probe_failures_in_band
  refine ⟨h.1 _ "ping: not found" rfl, (h.2.1 _ 1 "" "" rfl (by decide)).2, ?_, ?_⟩
  · exact (h.2.2.1 (pingerInit "http://example.com" 5 2 3 none) envHttpRaise "timed out"
      (by decide) (by decide) (Or.inl (by decide)) rfl).2
  · exact (h.2.2.2.2.2 (pingerInit "8.8.8.8" 5 2 3 none) envConnRaise "Connection refused"
      (by decide) (by decide) rfl).2

/-- C6: for a URL target probed over HTTP (no packet size configured), the
HEAD probe reports success exactly when the response status lies in
`[200, 400)` (line 233); and for a URL target whose parsed scheme is neither
`http` nor `https`, every check fails with the non-empty
`"Unsupported protocol: ..."` error and performs no network call at all
(line 237). -/
theorem claim_c6_http_status_and_scheme (target : String) (itv tmo : ℚ) (mf : ℕ)
    (env : PingEnv) (code : ℕ) :
    ((pingerInit target itv tmo mf none).is_url = true →
      ((pingerInit target itv tmo mf none).protocol = "http" ∨
        (pingerInit target itv tmo mf none).protocol = "https") →
      env.http = HttpOutcome.status code →
      ((ping_once (pingerInit target itv tmo mf none) env).1.success = true ↔
        (200 ≤ code ∧ code < 400))) ∧
    ((pingerInit target itv tmo mf none).is_url = true →
      (pingerInit target itv tmo mf none).protocol ≠ "http" →
      (pingerInit target itv tmo mf none).protocol ≠ "https" →
      (ping_once (pingerInit target itv tmo mf none) env).1.success = false ∧
      (ping_once (pingerInit target itv tmo mf none) env).1.error ≠ "" ∧
      (ping_once (pingerInit target itv tmo mf none) env).2 = []) := by
  have hps : (pingerInit target itv tmo mf none).packet_size = none := by
    by_cases h : pyIn "://" target <;> simp [pingerInit, h]
  constructor
  · intro hurl hproto hhttp
    simp only [ping_once, hps, Option.isSome_none, Bool.false_eq_true, if_false, hurl,
      if_true, hhttp]
    rw [if_pos hproto]
    by_cases hc : 200 ≤ code ∧ code < 400
    · simp [hc]
    · simp only [if_neg hc]
      simp [hc]
  · intro hurl hp1 hp2
    simp only [ping_once, hps, Option.isSome_none, Bool.false_eq_true, if_false, hurl, if_true]
    rw [if_neg (not_or.mpr ⟨hp1, hp2⟩)]
    exact ⟨rfl, str_append_ne_empty "Unsupported protocol: " _ (by decide), rfl⟩

/-- A network environment returning HTTP status 404. -/
def envHttp404 : PingEnv :=
  { http := HttpOutcome.status 404, conn := ConnOutcome.connected,
    sys := SysPingEnv.mk (Except.ok (0, "", "")) 1 "ts",
    elapsedMs := 3, timestamp := "ts" }

/-- A network environment returning HTTP status 204. -/
def envHttp204 : PingEnv :=
  { http := HttpOutcome.status 204, conn := ConnOutcome.connected,
    sys := SysPingEnv.mk (Except.ok (0, "", "")) 1 "ts",
    elapsedMs := 3, timestamp := "ts" }

/-- Witness for C6: status 204 succeeds and status 404 fails for
`http://example.com`, and an `ftp://host` target fails with a non-empty error
and zero network calls. -/
theorem claim_c6_http_status_and_scheme_witness :
    (ping_once (pingerInit "http://example.com" 5 2 3 none) envHttp204).1.success = true ∧
    (ping_once (pingerInit "http://example.com" 5 2 3 none) envHttp404).1.success = false ∧
    (ping_once (pingerInit "ftp://host" 5 2 3 none) envHttp404).1.success = false ∧
    (ping_once (pingerInit "ftp://host" 5 2 3 none) envHttp404).1.error ≠ "" ∧
    (ping_once (pingerInit "ftp://host" 5 2 3 none) envHttp404).2 = [] := by
  have h204 := (claim_c6_http_status_and_scheme "http://example.com" 5 2 3 envHttp204 204).1
    (by decide) (Or.inl (by decide)) rfl
  have h404 := (claim_c6_http_status_and_scheme "http://example.com" 5 2 3 envHttp404 404).1
    (by decide) (Or.inl (by decide)) rfl
  have hftp := (claim_c6_http_status_and_scheme "ftp://host" 5 2 3 envHttp404 404).2
    (by decide) (by decide) (by decide)
  refine ⟨h204.mpr (by decide), ?_, hftp.1, hftp.2.1, hftp.2.2⟩
  rw [Bool.eq_false_iff]
  intro hs
  exact absurd (h404.mp hs) (by decide)

/-- C8 counterexample: for an existing script path whose `os.chmod` raises
(here `"Permission denied"`), the exception is NOT returned as a captured
diagnostic: the `except` clause of lines 137-138 names only
`subprocess.CalledProcessError`, so `execute_shell_script` raises to its
caller — and `Pinger.start`, whose only handler is `KeyboardInterrupt`,
aborts — contradicting the claim that for an existing path every execution
failure is returned as a captured diagnostic and never raised. -/
theorem claim_c8_counterexample :
    execute_shell_script
      (ScriptEnv.mk true (ChmodOutcome.raised "Permission denied") 0 "" "")
      "/tmp/hook.sh" =
      (Except.error "Permission denied", [ScriptEffect.chmodExec]) := by
  rfl

/-- C8 (amended): for a nonexistent script path, execution fails fast with
the script-not-found diagnostic and performs no side effect at all; for an
existing path the file is first made executable and then invoked, in that
order, and a nonzero exit of the invocation is returned as the captured
`"Script execution failed: ..."` diagnostic (a zero exit returns the
script's stdout) — but a failure of the chmod step itself is not caught
(the `except` clause names only `subprocess.CalledProcessError`) and
propagates out of `execute_shell_script` without a process being spawned,
aborting the monitoring loop. -/
theorem claim_c8_script_hook (env : ScriptEnv) (path : String) :
    (env.pathExists = false →
      execute_shell_script env path =
        (Except.ok ("Script not found: " ++ path), [])) ∧
    (env.pathExists = true → env.chmod = ChmodOutcome.ok →
      (execute_shell_script env path).2 =
        [ScriptEffect.chmodExec, ScriptEffect.spawnScript]) ∧
    (env.pathExists = true → env.chmod = ChmodOutcome.ok → env.exitCode ≠ 0 →
      (execute_shell_script env path).1 =
        Except.ok ("Script execution failed: " ++ env.stderr)) ∧
    (env.pathExists = true → env.chmod = ChmodOutcome.ok → env.exitCode = 0 →
      (execute_shell_script env path).1 = Except.ok env.stdout) ∧
    (∀ msg, env.pathExists = true → env.chmod = ChmodOutcome.raised msg →
      execute_shell_script env path =
        (Except.error msg, [ScriptEffect.chmodExec])) := by
  refine ⟨?_, ?_, ?_, ?_, ?_⟩
  · intro h
    simp [execute_shell_script, h]
  · intro h hcm
    by_cases hc : env.exitCode = 0 <;> simp [execute_shell_script, h, hcm, hc]
  · intro h hcm hc
    simp [execute_shell_script, h, hcm, hc]
  · intro h hcm hc
    simp [execute_shell_script, h, hcm, hc]
  · intro msg h hcm
    simp [execute_shell_script, h, hcm]

/-- Witness for C8 (amended): a missing path yields the not-found diagnostic
with no side effects; an existing path with exit status 2 yields the captured
failure diagnostic after chmod and spawn; a raised chmod propagates with no
spawn. -/
theorem claim_c8_script_hook_witness :
    execute_shell_script (ScriptEnv.mk false ChmodOutcome.ok 0 "" "")
      "/tmp/absent.sh" =
      (Except.ok ("Script not found: " ++ "/tmp/absent.sh"), []) ∧
    (execute_shell_script (ScriptEnv.mk true ChmodOutcome.ok 2 "" "boom")
      "/tmp/hook.sh").2 = [ScriptEffect.chmodExec, ScriptEffect.spawnScript] ∧
    (execute_shell_script (ScriptEnv.mk true ChmodOutcome.ok 2 "" "boom")
      "/tmp/hook.sh").1 = Except.ok ("Script execution failed: " ++ "boom") ∧
    execute_shell_script
      (ScriptEnv.mk true (ChmodOutcome.raised "read-only file system") 0 "" "")
      "/tmp/hook.sh" =
      (Except.error "read-only file system", [ScriptEffect.chmodExec]) := by
  have h1 := claim_c8_script_hook (ScriptEnv.mk false ChmodOutcome.ok 0 "" "")
    "/tmp/absent.sh"
  have h2 := claim_c8_script_hook (ScriptEnv.mk true ChmodOutcome.ok 2 "" "boom")
    "/tmp/hook.sh"
  have h3 := claim_c8_script_hook
    (ScriptEnv.mk true (ChmodOutcome.raised "read-only file system") 0 "" "")
    "/tmp/hook.sh"
  exact ⟨h1.1 rfl, h2.2.1 rfl rfl, h2.2.2.1 rfl rfl (by decide),
    h3.2.2.2.2 "read-only file system" rfl rfl⟩

/-! ## String lemmas for the latency-parsing claim (C7) -/

theorem splitlinesAux_noBreak (cs : List Char) :
    ∀ acc, (∀ c ∈ cs, pyLineBreakChar c = false) →
    splitlinesAux cs acc =
      if acc.isEmpty ∧ cs.isEmpty then [] else [acc.reverse ++ cs] := by
  induction cs with
  | nil =>
    intro acc _
    by_cases h : acc.isEmpty
    · simp [splitlinesAux, h]
    · simp [splitlinesAux, h]
  | cons c rest ih =>
    intro acc hbrk
    have hc : pyLineBreakChar c = false := hbrk c (by simp)
    have hr : c ≠ '\r' := by
      intro h
      rw [h] at hc
      simp [pyLineBreakChar] at hc
    rw [splitlinesAux]
    · rw [if_neg (by simp [hc]), ih (c :: acc) (fun d hd => hbrk d (by simp [hd]))]
      simp
    · exact fun _ h _ => hr h

/-- A string without line-break characters splits into the single line
that it is. -/
theorem pySplitlinesL_single (cs : List Char) (hne : cs ≠ [])
    (hbrk : ∀ c ∈ cs, pyLineBreakChar c = false) :
    pySplitlinesL cs = [cs] := by
  rw [pySplitlinesL, splitlinesAux_noBreak cs [] hbrk]
  simp [hne]

theorem hasSubL_append_sep (sep rest : List Char) (hsep : sep ≠ []) :
    ∀ pre, hasSubL sep (pre ++ sep ++ rest) = true := by
  intro pre
  induction pre with
  | nil =>
    cases sep with
    | nil => exact absurd rfl hsep
    | cons s0 stl =>
      have hp : (s0 :: stl) <+: ((s0 :: stl) ++ rest) := List.prefix_append _ _
      simp only [List.nil_append, List.cons_append, hasSubL, Bool.or_eq_true,
        List.isPrefixOf_iff_prefix]
      exact Or.inl (by simpa using hp)
  | cons p pre ih =>
    simp only [List.cons_append, hasSubL, Bool.or_eq_true]
    exact Or.inr (by simpa using ih)

theorem hasSubL_cons_false (sep : List Char) (c : Char) (rest : List Char)
    (h : hasSubL sep (c :: rest) = false) :
    sep.isPrefixOf (c :: rest) = false ∧ hasSubL sep rest = false := by
  rw [hasSubL] at h
  exact ⟨by simpa using (Bool.or_eq_false_iff.mp h).1,
    (Bool.or_eq_false_iff.mp h).2⟩

theorem splitSubFuel_noSub (s0 : Char) (stl : List Char) (cs : List Char)
    (h : hasSubL (s0 :: stl) cs = false) :
    ∀ fuel, splitSubFuel s0 stl fuel cs = (cs, []) := by
  induction cs with
  | nil => intro fuel; cases fuel <;> rfl
  | cons c rest ih =>
    intro fuel
    cases fuel with
    | zero => rfl
    | succ fuel =>
      obtain ⟨h1, h2⟩ := hasSubL_cons_false _ _ _ h
      simp only [splitSubFuel, h1, Bool.false_eq_true, if_false]
      rw [ih h2 fuel]

theorem hasSubL_of_leading_sep (sep cs : List Char) (hsep : sep ≠ []) (h : sep <+: cs) :
    hasSubL sep cs = true := by
  cases cs with
  | nil =>
    obtain ⟨t, ht⟩ := h
    cases sep with
    | nil => exact absurd rfl hsep
    | cons a b => simp at ht
  | cons c rest =>
    simp only [hasSubL, Bool.or_eq_true, List.isPrefixOf_iff_prefix]
    exact Or.inl h

theorem prefix_append_of_length_le {α : Type} (l a b : List α) (h : l <+: a ++ b)
    (hlen : l.length ≤ a.length) : l <+: a := by
  have h1 : l <+: a ++ b := h
  have h2 : a <+: a ++ b := List.prefix_append _ _
  exact List.prefix_of_prefix_length_le h1 h2 hlen

theorem sep_not_prefix_boundary (sep : List Char) (hsep : sep ≠ [])
    (hov : ∀ k, 0 < k → k < sep.length → (sep.drop k).isPrefixOf sep = false)
    (pre rest : List Char) (hpre_ne : pre ≠ []) (hnp : hasSubL sep pre = false) :
    sep.isPrefixOf (pre ++ sep ++ rest) = false := by
  by_contra hcon
  rw [Bool.not_eq_false, List.isPrefixOf_iff_prefix] at hcon
  have hcon2 : sep <+: pre ++ (sep ++ rest) := by
    simpa [List.append_assoc] using hcon
  by_cases hlen : sep.length ≤ pre.length
  · have hp : sep <+: pre :=
      prefix_append_of_length_le sep pre (sep ++ rest) hcon2 hlen
    rw [hasSubL_of_leading_sep sep pre hsep hp] at hnp
    exact Bool.true_eq_false.mp hnp
  · push_neg at hlen
    set k := pre.length with hk
    have hkpos : 0 < k := by
      cases pre with
      | nil => exact absurd rfl hpre_ne
      | cons a b => simp [hk]
    have hpresep : pre <+: sep := by
      apply List.prefix_of_prefix_length_le (List.prefix_append _ _)
        (by simpa using hcon)
      exact le_of_lt hlen
    have htake : pre = sep.take k := by
      rw [hk]
      exact List.prefix_iff_eq_take.mp hpresep
    obtain ⟨t, ht⟩ := hcon2
    have hsepsplit : sep = pre ++ sep.drop k := by
      conv_lhs => rw [← List.take_append_drop k sep]
      rw [← htake]
    have h1 : pre ++ (sep.drop k ++ t) = pre ++ (sep ++ rest) := by
      rw [← List.append_assoc, ← hsepsplit]
      exact ht
    have hdrop : sep ++ rest = sep.drop k ++ t := (List.append_cancel_left h1).symm
    have hdp : sep.drop k <+: sep := by
      apply prefix_append_of_length_le (sep.drop k) sep rest ⟨t, hdrop.symm⟩
      simp
    have hfin := hov k hkpos hlen
    have hnot : ¬ (sep.drop k <+: sep) := by
      rw [← List.isPrefixOf_iff_prefix]
      simp [hfin]
    exact hnot hdp

theorem splitSubFuel_boundary (s0 : Char) (stl : List Char)
    (hov : ∀ k, 0 < k → k < (s0 :: stl).length →
      ((s0 :: stl).drop k).isPrefixOf (s0 :: stl) = false)
    (rest : List Char) (hrest : hasSubL (s0 :: stl) rest = false) :
    ∀ pre fuel, hasSubL (s0 :: stl) pre = false →
      (pre ++ (s0 :: stl) ++ rest).length ≤ fuel →
      splitSubFuel s0 stl fuel (pre ++ (s0 :: stl) ++ rest) = (pre, [rest]) := by
  intro pre
  induction pre with
  | nil =>
    intro fuel _ hfuel
    cases fuel with
    | zero => simp at hfuel
    | succ fuel =>
      have hpref : (s0 :: stl).isPrefixOf (s0 :: (stl ++ rest)) = true := by
        rw [List.isPrefixOf_iff_prefix]
        simp [List.cons_prefix_iff]
      simp only [List.nil_append, List.cons_append, splitSubFuel, List.append_eq, hpref,
        if_true]
      rw [List.drop_left]
      rw [splitSubFuel_noSub s0 stl rest hrest fuel]
  | cons p pre ih =>
    intro fuel hpre hfuel
    cases fuel with
    | zero => simp at hfuel
    | succ fuel =>
      obtain ⟨_, hpre2⟩ := hasSubL_cons_false _ _ _ hpre
      have hnb : (s0 :: stl).isPrefixOf (p :: (pre ++ s0 :: (stl ++ rest))) = false := by
        have hb := sep_not_prefix_boundary (s0 :: stl) (by simp) hov (p :: pre) rest
          (by simp) hpre
        simpa [List.append_assoc, List.cons_append] using hb
      have hlen : (pre ++ (s0 :: stl) ++ rest).length ≤ fuel := by
        simp only [List.length_append, List.length_cons] at hfuel ⊢
        omega
      have hih := ih fuel hpre2 hlen
      simp only [List.cons_append, List.append_assoc] at hih ⊢
      simp only [splitSubFuel, List.append_eq, hnb, Bool.false_eq_true, if_false]
      rw [hih]

/-- `str.split(sep)` on a string shaped `pre + sep + rest`, where `sep` occurs
in neither `pre` nor `rest` and cannot straddle a boundary, yields exactly
`[pre, rest]`. -/
theorem splitSubL_boundary (s0 : Char) (stl : List Char)
    (hov : ∀ k, 0 < k → k < (s0 :: stl).length →
      ((s0 :: stl).drop k).isPrefixOf (s0 :: stl) = false)
    (pre rest : List Char) (hpre : hasSubL (s0 :: stl) pre = false)
    (hrest : hasSubL (s0 :: stl) rest = false) :
    splitSubL (s0 :: stl) (pre ++ (s0 :: stl) ++ rest) = [pre, rest] := by
  rw [splitSubL]
  rw [splitSubFuel_boundary s0 stl hov rest hrest pre
    (pre ++ (s0 :: stl) ++ rest).length hpre (le_refl _)]

theorem splitWsAux_head (tail : List Char)
    (htail : pyWhitespaceChar (tail.headD ' ') = true) :
    ∀ tok acc, (∀ c ∈ tok, pyWhitespaceChar c = false) →
      (tok.isEmpty = false ∨ acc.isEmpty = false) →
      (splitWsAux (tok ++ tail) acc).head? = some (acc.reverse ++ tok) := by
  intro tok
  induction tok with
  | nil =>
    intro acc _ hne
    have hacc : acc.isEmpty = false := by
      rcases hne with h | h
      · simp at h
      · exact h
    cases tail with
    | nil =>
      simp only [List.nil_append, splitWsAux, hacc, Bool.false_eq_true, if_false]
      simp
    | cons d rest =>
      have hd : pyWhitespaceChar d = true := by simpa using htail
      simp only [List.nil_append, splitWsAux, hd, if_true, hacc, Bool.false_eq_true,
        if_false]
      simp
  | cons t tok ih =>
    intro acc htok _
    have ht : pyWhitespaceChar t = false := htok t (by simp)
    simp only [List.cons_append, splitWsAux, List.append_eq, ht, Bool.false_eq_true,
      if_false]
    rw [ih (t :: acc) (fun c hc => htok c (by simp [hc])) (Or.inr (by simp))]
    simp

/-- `str.split()` on `tok + tail`, where `tok` is a nonempty whitespace-free
word and `tail` is empty or starts with whitespace, begins with `tok`. -/
theorem splitWsL_head (tok tail : List Char) (htok : ∀ c ∈ tok, pyWhitespaceChar c = false)
    (hne : tok ≠ []) (htail : pyWhitespaceChar (tail.headD ' ') = true) :
    (splitWsL (tok ++ tail)).head? = some tok := by
  rw [splitWsL, splitWsAux_head tail htail tok [] htok
    (Or.inl (by cases tok with | nil => exact absurd rfl hne | cons a b => simp))]
  simp

theorem string_toList_append (s t : String) : (s ++ t).toList = s.toList ++ t.toList :=
  String.data_append s t

/-- The self-overlap freedom of the separator `"time="`: no proper suffix of
it is one of its prefixes, so an occurrence cannot straddle the boundary of a
concatenation. -/
theorem timeEq_no_overlap :
    ∀ k, k < ("time=".toList).length → 0 < k →
      (("time=".toList).drop k).isPrefixOf "time=".toList = false := by
  decide

theorem parseLineTime_boundary (pre tok tail : List Char)
    (hpre : hasSubL "time=".toList pre = false)
    (hrest : hasSubL "time=".toList (tok ++ tail) = false)
    (htok : ∀ c ∈ tok, pyWhitespaceChar c = false) (htokne : tok ≠ [])
    (htail : pyWhitespaceChar (tail.headD ' ') = true) :
    parseLineTime (pre ++ "time=".toList ++ (tok ++ tail)) =
      pyFloatCore? (pyStrip (replaceSubL "ms".toList [] tok)) := by
  have hin : hasSubL "time=".toList (pre ++ "time=".toList ++ (tok ++ tail)) = true := by
    have := hasSubL_append_sep "time=".toList (tok ++ tail) (by decide) pre
    simpa [List.append_assoc] using this
  have hsplit : splitSubL "time=".toList (pre ++ "time=".toList ++ (tok ++ tail)) =
      [pre, tok ++ tail] := by
    have hov : ∀ k, 0 < k → k < ('t' :: "ime=".toList).length →
        (('t' :: "ime=".toList).drop k).isPrefixOf ('t' :: "ime=".toList) = false := by
      intro k h1 h2
      have h3 : k < ("time=".toList).length := by simpa using h2
      simpa using timeEq_no_overlap k h3 h1
    have := splitSubL_boundary 't' "ime=".toList hov pre (tok ++ tail)
      (by simpa using hpre) (by simpa using hrest)
    simpa using this
  rw [parseLineTime]
  simp only [hin, if_true, hsplit]
  simp only [List.get?_cons_succ, List.get?_cons_zero, Option.bind_some, Option.some_bind]
  rw [splitWsL_head tok tail htok htokne htail]
  simp

unseal Rat.inv Rat.mul Rat.add in
/-- C7 counterexample: ping output whose timing token parses to `0.0` (as
printed for sub-microsecond loopback round trips, e.g. `time=0.000 ms`) does
NOT yield the parsed value: because the scanning loop leaves `response_time`
at `0.0`, the fallback of lines 199-201 overwrites it with the measured
wall-clock elapsed time (here 5 ms).  The token parses to `0`, yet the
reported latency is `5`. -/
theorem claim_c7_counterexample :
    parseLineTime "64 bytes from 127.0.0.1: icmp_seq=1 ttl=64 time=0.000 ms".toList =
      some 0 ∧
    system_ping (SysPingEnv.mk
        (Except.ok (0, "64 bytes from 127.0.0.1: icmp_seq=1 ttl=64 time=0.000 ms", ""))
        5 "ts") =
      ProbeResult.mk true 5 "ts" "" := by
  constructor
  · decide
  · decide

/-- C7 (amended): for a successful external-ping invocation whose single-line
output contains a `time=` field followed by a numeric token (the token free
of whitespace and of further `time=` occurrences), the parsed value `v` of
the token (after deleting `ms` substrings) is reported as the latency
whenever `v` is nonzero; when the parsed value is exactly `0`, and likewise
when no `time=`/`time<` token occurs at all, the reported latency falls back
to the measured wall-clock elapsed time of the whole invocation.

(The token hypotheses state the shape in the claim: `tok` is the
whitespace-delimited field right after the first `time=`, and the output is a
single line.) -/
theorem claim_c7_latency_parsing (pre tok tail : String) (v elapsed : ℚ) (ts : String)
    (hpre : hasSubL "time=".toList pre.toList = false)
    (hrest : hasSubL "time=".toList (tok.toList ++ tail.toList) = false)
    (hbrk : ∀ c ∈ (pre ++ "time=" ++ tok ++ tail).toList, pyLineBreakChar c = false)
    (htok : ∀ c ∈ tok.toList, pyWhitespaceChar c = false) (htokne : tok.toList ≠ [])
    (htail : pyWhitespaceChar (tail.toList.headD ' ') = true)
    (hv : pyFloatCore? (pyStrip (replaceSubL "ms".toList [] tok.toList)) = some v) :
    scanResponseTime (pre ++ "time=" ++ tok ++ tail) = v ∧
    (v ≠ 0 →
      system_ping (SysPingEnv.mk (Except.ok (0, pre ++ "time=" ++ tok ++ tail, ""))
        elapsed ts) = ProbeResult.mk true v ts "") ∧
    (v = 0 →
      system_ping (SysPingEnv.mk (Except.ok (0, pre ++ "time=" ++ tok ++ tail, ""))
        elapsed ts) = ProbeResult.mk true elapsed ts "") ∧
    (∀ out2 : String, hasSubL "time=".toList out2.toList = false →
      hasSubL "time<".toList out2.toList = false →
      system_ping (SysPingEnv.mk (Except.ok (0, out2, "")) elapsed ts) =
        ProbeResult.mk true elapsed ts "") := by
  have htl : (pre ++ "time=" ++ tok ++ tail).toList =
      pre.toList ++ "time=".toList ++ (tok.toList ++ tail.toList) := by
    simp [string_toList_append, List.append_assoc]
  have hin : hasSubL "time=".toList (pre ++ "time=" ++ tok ++ tail).toList = true := by
    rw [htl]
    have := hasSubL_append_sep "time=".toList (tok.toList ++ tail.toList) (by decide)
      pre.toList
    simpa [List.append_assoc] using this
  have houtne : (pre ++ "time=" ++ tok ++ tail).toList ≠ [] := by
    intro h
    rw [h] at hin
    simp [hasSubL] at hin
  have hline : pySplitlinesL (pre ++ "time=" ++ tok ++ tail).toList =
      [(pre ++ "time=" ++ tok ++ tail).toList] :=
    pySplitlinesL_single _ houtne hbrk
  have hparse : parseLineTime (pre ++ "time=" ++ tok ++ tail).toList = some v := by
    rw [htl, parseLineTime_boundary pre.toList tok.toList tail.toList hpre hrest htok
      htokne htail, hv]
  have hscan : scanResponseTime (pre ++ "time=" ++ tok ++ tail) = v := by
    rw [scanResponseTime, if_pos (Or.inl hin), hline]
    simp only [List.foldl_cons, List.foldl_nil]
    rw [if_pos (Or.inl hin), hparse]
  refine ⟨hscan, ?_, ?_, ?_⟩
  · intro hvne
    simp only [system_ping, hscan, if_true]
    rw [if_neg hvne]
  · intro hv0
    simp only [system_ping, hscan, if_true]
    rw [if_pos hv0]
  · intro out2 h1 h2
    have hguard : ¬ (hasSubL "time=".toList out2.toList = true ∨
        hasSubL "time<".toList out2.toList = true) := by
      rw [h1, h2]
      simp
    have hscan2 : scanResponseTime out2 = 0 := by
      rw [scanResponseTime, if_neg hguard]
    simp only [system_ping, hscan2, if_true]

unseal Rat.inv Rat.mul Rat.add in
/-- Witness for C7 (amended): output containing `time=23.4 ms` yields latency
`23.4`; output with no timing token yields the wall-clock elapsed time. -/
theorem claim_c7_latency_parsing_witness :
    scanResponseTime ("64 bytes from 8.8.8.8: icmp_seq=1 ttl=117 " ++ "time=" ++
      "23.4" ++ " ms") = 234 / 10 ∧
    system_ping (SysPingEnv.mk
        (Except.ok (0, "64 bytes from 8.8.8.8: icmp_seq=1 ttl=117 " ++ "time=" ++
          "23.4" ++ " ms", "")) 7 "ts") =
      ProbeResult.mk true (234 / 10) "ts" "" ∧
    system_ping (SysPingEnv.mk (Except.ok (0, "Request timed out.", "")) 7 "ts") =
      ProbeResult.mk true 7 "ts" "" := by
  have h := claim_c7_latency_parsing "64 bytes from 8.8.8.8: icmp_seq=1 ttl=117 "
    "23.4" " ms" (234 / 10) 7 "ts" (by decide) (by decide) (by decide) (by decide)
    (by decide) (by decide) (by decide)
  exact ⟨h.1, h.2.1 (by decide), h.2.2.2 "Request timed out." (by decide) (by decide)⟩
